import Mathlib

/-!
Verification of the ConstArray component of epicsdbbuilder
(src/epicsdbbuilder/const_array.py).

The Python class ConstArray validates a homogeneous, non-empty sequence of
scalar/string/parameter values at construction time and renders it as a
bracketed constant-link literal.  We embed the element values as an
inductive type, the construction-time checks as an Except-valued function,
and the two callback methods (Validate, FormatDb) plus the debug
representation as state-passing functions returning the (unchanged)
object together with their result.
-/

/-- A finite value of the Python decimal.Decimal class (sign, coefficient
digits as a string of decimal digit characters, exponent).  The standard
library class is external to the excerpt; its textual form below follows
the decimal specification used by Python (str of a finite Decimal). -/
structure PyDecimal where
  sign : Bool
  digits : String
  exp : Int
deriving DecidableEq

/-- str of a finite Python Decimal: plain positional form when the
exponent is non-positive and the adjusted exponent is at least -6,
scientific form with an explicitly signed exponent otherwise. -/
def decimalStr (d : PyDecimal) : String :=
  let n : Int := Int.ofNat d.digits.length
  let leftdigits : Int := d.exp + n
  let dotplace : Int := if d.exp ≤ 0 ∧ -6 < leftdigits then leftdigits else 1
  let intpart : String :=
    if dotplace ≤ 0 then ("0")
    else if n ≤ dotplace then
      d.digits ++ String.mk (List.replicate (dotplace - n).toNat ('0'))
    else d.digits.take dotplace.toNat
  let fracpart : String :=
    if dotplace ≤ 0 then
      (".") ++ String.mk (List.replicate (-dotplace).toNat ('0')) ++ d.digits
    else if n ≤ dotplace then ("")
    else (".") ++ d.digits.drop dotplace.toNat
  let expo : Int := leftdigits - dotplace
  let expStr : String :=
    if expo = 0 then ("")
    else ("E") ++ (if 0 ≤ expo then ("+") else ("")) ++ toString expo
  (if d.sign then ("-") else ("")) ++ intpart ++ fracpart ++ expStr

/-- A Python value that may appear as an element of the iterable handed to
ConstArray.  The recognised kinds of const_array.py are Parameter, str,
int, bool and Decimal; the constructor named other stands for a value of
any other Python class, identified by the name of that class.

Python float elements (valid, numeric-like, rendered through str) are not
embedded: their textual form is decided by binary floating point, which is
outside this development; the Decimal kind covers the decimal-number
case. -/
inductive PyVal where
  | param (name : String)
  | pstr (s : String)
  | pint (n : Int)
  | pbool (b : Bool)
  | pdec (d : PyDecimal)
  | other (typeName : String)
deriving DecidableEq

/-- The name of the Python class of a value, as it appears in the error
messages of ConstArray. -/
def pyTypeName : PyVal → String
  | PyVal.param _ => ("Parameter")
  | PyVal.pstr _ => ("str")
  | PyVal.pint _ => ("int")
  | PyVal.pbool _ => ("bool")
  | PyVal.pdec _ => ("Decimal")
  | PyVal.other t => t

/-- isinstance(value, valid_types) of const_array.py, with
valid_types = (Parameter, str, int, float, bool, Decimal): every
embedded kind except the catch-all other is accepted. -/
def isValidType : PyVal → Bool
  | PyVal.other _ => false
  | _ => true

/-- isinstance(value, (Parameter, str)) of const_array.py: the test that
classifies an element as string-like. -/
def isStringLike : PyVal → Bool
  | PyVal.param _ => true
  | PyVal.pstr _ => true
  | _ => false

/-- The failures raised by the assert statements inside
ConstArray._sanitize, one constructor per message.  The two mixing
constructors carry the index quoted by the message. -/
inductive ValidationError where
  | emptyIterable
  | invalidType (index : Nat) (typeName : String)
  | mixStrings (index : Nat)
  | mixNumbers (index : Nat)
deriving DecidableEq

/-- The index the error message reports, when it reports one. -/
def reportedIndex : ValidationError → Option Nat
  | ValidationError.emptyIterable => none
  | ValidationError.invalidType i _ => some i
  | ValidationError.mixStrings i => some i
  | ValidationError.mixNumbers i => some i

/-- The for loop of ConstArray._sanitize: walks the elements with the
running index and the two flags numbers and strings, failing on the first
element of an unrecognised class, on the first string-like element after a
numeric one, and on the first numeric element after a string-like one. -/
def sanitizeLoop : List PyVal → Nat → Bool → Bool → Except ValidationError Unit
  | [], _, _, _ => Except.ok ()
  | v :: rest, index, numbers, strings =>
    if isValidType v = false then
      Except.error (ValidationError.invalidType index (pyTypeName v))
    else if isStringLike v = true then
      (if numbers = true then Except.error (ValidationError.mixStrings index)
       else sanitizeLoop rest (index + 1) numbers true)
    else
      (if strings = true then Except.error (ValidationError.mixNumbers index)
       else sanitizeLoop rest (index + 1) true strings)

/-- The value object: self.__value holds the sanitized list. -/
structure ConstArray where
  value : List PyVal
deriving DecidableEq

/-- ConstArray._sanitize: the list built from the iterable must be
non-empty, and the element loop above must accept it; the list itself is
returned. -/
def ConstArray._sanitize (raw_value : List PyVal) : Except ValidationError (List PyVal) :=
  match raw_value with
  | [] => Except.error ValidationError.emptyIterable
  | _ =>
    match sanitizeLoop raw_value 0 false false with
    | Except.error e => Except.error e
    | Except.ok _ => Except.ok raw_value

/-- ConstArray.__init__: self.__value = self._sanitize(value); a raised
assertion becomes an error result. -/
def mkConstArray (value : List PyVal) : Except ValidationError ConstArray :=
  match ConstArray._sanitize value with
  | Except.error e => Except.error e
  | Except.ok l => Except.ok (ConstArray.mk l)

/-- Modelled from the spec: str of a Parameter, which parameter.py (not in
the excerpt) renders as the macro reference wrapping the parameter name. -/
def paramStr (name : String) : String := ("$(") ++ name ++ (")")

/-- Lower-case hexadecimal digits of a natural number. -/
def hexStr (n : Nat) : String := String.mk (Nat.toDigits 16 n)

/-- Modelled from the spec: the per-character escaping performed by
recordbase.quote_string (not in the excerpt): embedded double quotes,
backslashes and characters outside the printable ASCII range are each
individually escaped. -/
def escapeChar (c : Char) : String :=
  if c = '\\' then ("\\\\")
  else if c = '"' then ("\\\"")
  else if c.toNat < 32 ∨ 127 ≤ c.toNat then
    ("\\x") ++ (if c.toNat < 16 then ("0") else ("")) ++ hexStr c.toNat
  else String.singleton c

/-- Modelled from the spec: recordbase.quote_string (not in the excerpt)
wraps the escaped characters in double quotes, yielding one parser-safe
quoted token. -/
def quote_string (s : String) : String :=
  ("\"") ++ String.join (s.toList.map escapeChar) ++ ("\"")

/-- Python str applied to an embedded value: macro reference for a
Parameter, the text itself for a str, the decimal form for int and
Decimal.  The other case stands for the str of an arbitrary object and is
never reached from a constructed ConstArray. -/
def pyStr : PyVal → String
  | PyVal.param name => paramStr name
  | PyVal.pstr s => s
  | PyVal.pint n => toString n
  | PyVal.pbool b => if b then ("True") else ("False")
  | PyVal.pdec d => decimalStr d
  | PyVal.other t => ("<") ++ t ++ (" object>")

/-- ConstArray._format_constant: a Parameter renders as its str wrapped in
double quotes, a str through quote_string, a bool as 1 or 0, and any
other value as its plain str. -/
def ConstArray._format_constant : PyVal → String
  | PyVal.param name => ("\"") ++ paramStr name ++ ("\"")
  | PyVal.pstr s => quote_string s
  | PyVal.pbool b => if b then ("1") else ("0")
  | v => pyStr v

/-- The body of ConstArray.FormatDb on a given element list: each element
through _format_constant, joined with commas, wrapped in brackets. -/
def formatConstList (l : List PyVal) : String :=
  ("[") ++ String.intercalate (",") (l.map ConstArray._format_constant) ++ ("]")

/-- ConstArray.FormatDb(record, fieldname): returns the bracketed text and
leaves the object unchanged (the method only reads self.__value). -/
def ConstArray.FormatDb (self : ConstArray) (record fieldname : String) :
    String × ConstArray :=
  (formatConstList self.value, self)

/-- ConstArray.Validate(record, fieldname): the body is pass, so the call
returns successfully and leaves the object unchanged. -/
def ConstArray.Validate (self : ConstArray) (record fieldname : String) :
    Except ValidationError Unit × ConstArray :=
  (Except.ok (), self)

/-- repr of an element, as it appears inside the debug representation of
the list; quoting details of the Python repr are modelled up to quote
style, and no claim inspects this text. -/
def pyRepr : PyVal → String
  | PyVal.param name => ("Parameter(") ++ name ++ (")")
  | PyVal.pstr s => ("\"") ++ s ++ ("\"")
  | PyVal.pint n => toString n
  | PyVal.pbool b => if b then ("True") else ("False")
  | PyVal.pdec d => ("Decimal(\"") ++ decimalStr d ++ ("\")")
  | PyVal.other t => ("<") ++ t ++ (">")

/-- ConstArray.__repr__: the debug string reproducing the validated
internal sequence; the call leaves the object unchanged. -/
def ConstArray.reprStr (self : ConstArray) : String × ConstArray :=
  (("<ConstArray [") ++ String.intercalate (", ") (self.value.map pyRepr) ++ ("]>"),
   self)

/-- A store of Python list objects, for the heap-explicit reading of the
constructor: list(raw_value) in _sanitize copies the contents of the
list object handed in by the caller into a fresh list object. -/
structure PyListStore where
  cells : List (List PyVal)
deriving DecidableEq

/-- The contents of the list object at a given address. -/
def readCell (s : PyListStore) (i : Nat) : List PyVal := s.cells.getD i []

/-- In-place mutation of the list object at a given address, as the caller
of the constructor may perform on its own list after construction. -/
def writeCell (s : PyListStore) (i : Nat) (w : List PyVal) : PyListStore :=
  PyListStore.mk (s.cells.set i w)

/-- A ConstArray whose __value field is a reference to a list object in
the store. -/
structure ConstArrayRef where
  ref : Nat
deriving DecidableEq

/-- Heap-explicit ConstArray.__init__: reads the caller's list object,
sanitizes its contents, and stores the copy made by list(raw_value) in a
fresh cell; the returned object references only that fresh cell. -/
def mkConstArrayH (s : PyListStore) (i : Nat) :
    Except ValidationError (PyListStore × ConstArrayRef) :=
  match ConstArray._sanitize (readCell s i) with
  | Except.error e => Except.error e
  | Except.ok l =>
    Except.ok (PyListStore.mk (s.cells ++ [l]), ConstArrayRef.mk s.cells.length)

/-- Heap-explicit ConstArray.FormatDb: formats the contents of the cell
the object references. -/
def ConstArrayRef.FormatDb (a : ConstArrayRef) (s : PyListStore)
    (record fieldname : String) : String :=
  formatConstList (readCell s a.ref)

/-- The rendering rule as the spec words it, element by element: a
Parameter in its quoted macro-reference form, a string in its
escaped/quoted form, a boolean as 1 or 0, and any other value in its
plain decimal string form. -/
def specRenderElem : PyVal → String
  | PyVal.param name => ("\"") ++ ("$(") ++ name ++ (")") ++ ("\"")
  | PyVal.pstr s => quote_string s
  | PyVal.pbool b => if b then ("1") else ("0")
  | PyVal.pint n => toString n
  | PyVal.pdec d => decimalStr d
  | PyVal.other t => pyStr (PyVal.other t)

/-- The whole-array rendering as the spec words it: elements comma-joined
with no surrounding whitespace, the whole sequence bracket-delimited. -/
def specArrayRender (l : List PyVal) : String :=
  ("[") ++ String.intercalate (",") (l.map specRenderElem) ++ ("]")

/-- The element a list holds at an index (an arbitrary default beyond the
end, used only below bounds checks). -/
def elemAt (l : List PyVal) (i : Nat) : PyVal := l.getD i (PyVal.other (""))

theorem elemAt_cons_succ (v : PyVal) (l : List PyVal) (i : Nat) :
    elemAt (v :: l) (i + 1) = elemAt l i := rfl

theorem elemAt_mem : ∀ (l : List PyVal) (i : Nat), i < l.length → elemAt l i ∈ l := by
  intro l
  induction l with
  | nil => intro i h; exact absurd h (Nat.not_lt_zero i)
  | cons v rest ih =>
    intro i h
    cases i with
    | zero => exact List.mem_cons_self v rest
    | succ j =>
      rw [elemAt_cons_succ]
      exact List.mem_cons_of_mem v (ih j (Nat.lt_of_succ_lt_succ h))

theorem drop_eq_elemAt_cons :
    ∀ (l : List PyVal) (k : Nat), k < l.length →
      l.drop k = elemAt l k :: l.drop (k + 1) := by
  intro l
  induction l with
  | nil => intro k h; exact absurd h (Nat.not_lt_zero k)
  | cons v rest ih =>
    intro k h
    cases k with
    | zero => rfl
    | succ j =>
      show rest.drop j = elemAt rest j :: rest.drop (j + 1)
      exact ih j (Nat.lt_of_succ_lt_succ h)

theorem sanitizeLoop_step_uniform (v : PyVal) (rest : List PyVal) (i0 : Nat)
    (c : Bool) (hv : isValidType v = true) (hs : isStringLike v = c) :
    sanitizeLoop (v :: rest) i0 (!c) c = sanitizeLoop rest (i0 + 1) (!c) c := by
  cases c with
  | false => simp [sanitizeLoop, hv, hs]
  | true => simp [sanitizeLoop, hv, hs]

theorem sanitizeLoop_first (v : PyVal) (rest : List PyVal) (i0 : Nat)
    (hv : isValidType v = true) :
    sanitizeLoop (v :: rest) i0 false false
      = sanitizeLoop rest (i0 + 1) (!(isStringLike v)) (isStringLike v) := by
  cases hs : isStringLike v with
  | false => simp [sanitizeLoop, hv, hs]
  | true => simp [sanitizeLoop, hv, hs]

theorem sanitizeLoop_uniform_front (c : Bool) :
    ∀ (l : List PyVal) (k i0 : Nat), k ≤ l.length →
      (∀ j, j < k → isValidType (elemAt l j) = true ∧ isStringLike (elemAt l j) = c) →
      sanitizeLoop l i0 (!c) c = sanitizeLoop (l.drop k) (i0 + k) (!c) c := by
  intro l
  induction l with
  | nil =>
    intro k i0 hk _
    have hk0 : k = 0 := Nat.le_zero.mp hk
    subst hk0
    rfl
  | cons v rest ih =>
    intro k i0 hk hfront
    cases k with
    | zero => rfl
    | succ k' =>
      have h0 := hfront 0 (Nat.succ_pos k')
      have hstep := sanitizeLoop_step_uniform v rest i0 c h0.1 h0.2
      have hfront' : ∀ j, j < k' →
          isValidType (elemAt rest j) = true ∧ isStringLike (elemAt rest j) = c := by
        intro j hj
        have := hfront (j + 1) (Nat.succ_lt_succ hj)
        rwa [elemAt_cons_succ] at this
      have hk' : k' ≤ rest.length := Nat.le_of_succ_le_succ hk
      have harith : i0 + 1 + k' = i0 + (k' + 1) := by omega
      calc sanitizeLoop (v :: rest) i0 (!c) c
          = sanitizeLoop rest (i0 + 1) (!c) c := hstep
        _ = sanitizeLoop (rest.drop k') (i0 + 1 + k') (!c) c := ih k' (i0 + 1) hk' hfront'
        _ = sanitizeLoop ((v :: rest).drop (k' + 1)) (i0 + (k' + 1)) (!c) c := by
            rw [harith]; rfl

theorem sanitizeLoop_uniform_ok (c : Bool) (l : List PyVal)
    (h : ∀ v ∈ l, isValidType v = true ∧ isStringLike v = c) (i0 : Nat) :
    sanitizeLoop l i0 (!c) c = Except.ok () := by
  have hfront : ∀ j, j < l.length →
      isValidType (elemAt l j) = true ∧ isStringLike (elemAt l j) = c := by
    intro j hj
    exact h (elemAt l j) (elemAt_mem l j hj)
  have := sanitizeLoop_uniform_front c l l.length i0 (Nat.le_refl _) hfront
  rw [this, List.drop_length]
  rfl

theorem sanitizeLoop_ok_no_strings :
    ∀ (l : List PyVal) (i0 : Nat) (st : Bool),
      sanitizeLoop l i0 true st = Except.ok () →
      ∀ v ∈ l, isValidType v = true ∧ isStringLike v = false := by
  intro l
  induction l with
  | nil => intro i0 st _ v hv; exact absurd hv (List.not_mem_nil v)
  | cons w rest ih =>
    intro i0 st hok v hv
    cases hvt : isValidType w with
    | false => simp [sanitizeLoop, hvt] at hok
    | true =>
      cases hsl : isStringLike w with
      | true => simp [sanitizeLoop, hvt, hsl] at hok
      | false =>
        cases hst : st with
        | true => rw [hst] at hok; simp [sanitizeLoop, hvt, hsl] at hok
        | false =>
          rw [hst] at hok
          have hrest : sanitizeLoop rest (i0 + 1) true false = Except.ok () := by
            simpa [sanitizeLoop, hvt, hsl] using hok
          rcases List.mem_cons.mp hv with hv0 | hvr
          · subst hv0; exact ⟨hvt, hsl⟩
          · exact ih (i0 + 1) false hrest v hvr

theorem sanitizeLoop_ok_all_strings :
    ∀ (l : List PyVal) (i0 : Nat) (nb : Bool),
      sanitizeLoop l i0 nb true = Except.ok () →
      ∀ v ∈ l, isValidType v = true ∧ isStringLike v = true := by
  intro l
  induction l with
  | nil => intro i0 nb _ v hv; exact absurd hv (List.not_mem_nil v)
  | cons w rest ih =>
    intro i0 nb hok v hv
    cases hvt : isValidType w with
    | false => simp [sanitizeLoop, hvt] at hok
    | true =>
      cases hsl : isStringLike w with
      | false => simp [sanitizeLoop, hvt, hsl] at hok
      | true =>
        cases hnb : nb with
        | true => rw [hnb] at hok; simp [sanitizeLoop, hvt, hsl] at hok
        | false =>
          rw [hnb] at hok
          have hrest : sanitizeLoop rest (i0 + 1) false true = Except.ok () := by
            simpa [sanitizeLoop, hvt, hsl] using hok
          rcases List.mem_cons.mp hv with hv0 | hvr
          · subst hv0; exact ⟨hvt, hsl⟩
          · exact ih (i0 + 1) false hrest v hvr

theorem sanitize_ok_inv (l l2 : List PyVal)
    (h : ConstArray._sanitize l = Except.ok l2) :
    l2 = l ∧ l ≠ [] ∧ sanitizeLoop l 0 false false = Except.ok () := by
  cases l with
  | nil => simp [ConstArray._sanitize] at h
  | cons v rest =>
    cases hs : sanitizeLoop (v :: rest) 0 false false with
    | error e => simp [ConstArray._sanitize, hs] at h
    | ok u =>
      cases u
      simp [ConstArray._sanitize, hs] at h
      exact ⟨h.symm, List.cons_ne_nil v rest, rfl⟩

theorem mkConstArray_ok_inv (v : List PyVal) (a : ConstArray)
    (h : mkConstArray v = Except.ok a) :
    a.value = v ∧ v ≠ [] ∧ sanitizeLoop v 0 false false = Except.ok () := by
  cases hs : ConstArray._sanitize v with
  | error e => rw [mkConstArray, hs] at h; simp at h
  | ok l =>
    rw [mkConstArray, hs] at h
    simp at h
    obtain ⟨hl, hne, hloop⟩ := sanitize_ok_inv v l hs
    subst hl
    exact ⟨by rw [← h], hne, hloop⟩

theorem format_constant_eq_spec_render (w : PyVal) :
    ConstArray._format_constant w = specRenderElem w := by
  cases w with
  | param name =>
    show ("\"") ++ paramStr name ++ ("\"") = ("\"") ++ ("$(") ++ name ++ (")") ++ ("\"")
    simp only [paramStr, String.append_assoc]
  | pstr s => rfl
  | pint n => rfl
  | pbool b => rfl
  | pdec d => rfl
  | other t => rfl

/-- Claim C3: construction from the empty iterable fails with the
ValidationError for empty iterables; the failure happens at construction
time, so no ConstArray object exists on which Validate or FormatDb could
later fail. -/
theorem constarray_empty_fails :
    mkConstArray ([]) = Except.error ValidationError.emptyIterable := rfl

/-- Claim C7: Validate is a no-op for every constructed ConstArray and any
record and fieldname arguments: it returns success, leaves the object
unchanged, and iterating the call any number of times still leaves the
object unchanged. -/
theorem constarray_validate_noop (a : ConstArray) (record fieldname : String)
    (n : Nat) :
    (a.Validate record fieldname).1 = Except.ok ()
    ∧ (a.Validate record fieldname).2 = a
    ∧ (fun x : ConstArray => (x.Validate record fieldname).2)^[n] a = a :=
  ⟨rfl, rfl, Function.iterate_fixed rfl n⟩

/-- Claim C9: the text FormatDb returns does not depend on the record and
fieldname arguments; any two calls on the same ConstArray return the
identical string. -/
theorem constarray_formatdb_context_independent (a : ConstArray)
    (record1 fieldname1 record2 fieldname2 : String) :
    (a.FormatDb record1 fieldname1).1 = (a.FormatDb record2 fieldname2).1 := rfl

/-- Claim C1: for every successfully constructed ConstArray, FormatDb
returns the bracket-delimited, comma-joined rendering in which each
element appears in the form the spec prescribes for its kind (Parameter
as a quoted macro reference, string escaped and quoted, boolean as 1 or
0, any other value as its plain decimal string). -/
theorem constarray_formatdb_matches_spec_render (v : List PyVal)
    (a : ConstArray) (record fieldname : String)
    (h : mkConstArray v = Except.ok a) :
    (a.FormatDb record fieldname).1 = specArrayRender a.value := by
  show formatConstList a.value = specArrayRender a.value
  rw [formatConstList, specArrayRender,
    List.map_congr_left (fun w _ => format_constant_eq_spec_render w)]

/-- Witness for C1 at the concrete input of Example 2: the array [1,2,3]
is accepted and renders as the plain text with brackets and commas. -/
theorem constarray_formatdb_matches_spec_render_witness :
    mkConstArray ([PyVal.pint 1, PyVal.pint 2, PyVal.pint 3])
      = Except.ok (ConstArray.mk ([PyVal.pint 1, PyVal.pint 2, PyVal.pint 3]))
    ∧ ((ConstArray.mk ([PyVal.pint 1, PyVal.pint 2, PyVal.pint 3])).FormatDb
        ("REC") ("INP")).1
      = specArrayRender ([PyVal.pint 1, PyVal.pint 2, PyVal.pint 3])
    ∧ ((ConstArray.mk ([PyVal.pint 1, PyVal.pint 2, PyVal.pint 3])).FormatDb
        ("REC") ("INP")).1
      = ("[1,2,3]") :=
  ⟨rfl,
   constarray_formatdb_matches_spec_render
     ([PyVal.pint 1, PyVal.pint 2, PyVal.pint 3])
     (ConstArray.mk ([PyVal.pint 1, PyVal.pint 2, PyVal.pint 3]))
     ("REC") ("INP") rfl,
   by decide⟩

/-- Claim C4: every non-empty sequence whose elements are all of valid
kinds and all of one category (all string-like, or all numeric-like) is
accepted by the constructor, which stores exactly that sequence; and a
Parameter is classified as string-like. -/
theorem constarray_homogeneous_ok (l : List PyVal)
    (hne : l ≠ [])
    (hvalid : ∀ v ∈ l, isValidType v = true)
    (hcat : (∀ v ∈ l, isStringLike v = true) ∨ (∀ v ∈ l, isStringLike v = false)) :
    mkConstArray l = Except.ok (ConstArray.mk l)
    ∧ ∀ name, isStringLike (PyVal.param name) = true := by
  refine ⟨?_, fun name => rfl⟩
  obtain ⟨v, rest, rfl⟩ := List.exists_cons_of_ne_nil hne
  have hv0 : isValidType v = true := hvalid v (List.mem_cons_self v rest)
  have hloop : sanitizeLoop (v :: rest) 0 false false = Except.ok () := by
    rw [sanitizeLoop_first v rest 0 hv0]
    apply sanitizeLoop_uniform_ok
    intro w hw
    refine ⟨hvalid w (List.mem_cons_of_mem v hw), ?_⟩
    rcases hcat with hall | hall
    · rw [hall w (List.mem_cons_of_mem v hw), hall v (List.mem_cons_self v rest)]
    · rw [hall w (List.mem_cons_of_mem v hw), hall v (List.mem_cons_self v rest)]
  simp [mkConstArray, ConstArray._sanitize, hloop]

/-- Witness for C4: the one-element sequence holding only a Parameter is
accepted, stored as given, and Parameters are classified string-like. -/
theorem constarray_homogeneous_ok_witness :
    mkConstArray ([PyVal.param ("P")])
      = Except.ok (ConstArray.mk ([PyVal.param ("P")]))
    ∧ ∀ name, isStringLike (PyVal.param name) = true :=
  constarray_homogeneous_ok ([PyVal.param ("P")]) (by decide) (by decide)
    (Or.inl (by decide))

/-- Claim C2: when every element is of a valid kind and the element at
index k is the first whose category differs from the category of the
first element, construction fails and the error reports exactly index
k. -/
theorem constarray_mixed_fails_at_first_mismatch (l : List PyVal) (k : Nat)
    (hvalid : ∀ v ∈ l, isValidType v = true)
    (hk : k < l.length)
    (hdiff : isStringLike (elemAt l k) ≠ isStringLike (elemAt l 0))
    (hfirst : ∀ j, j < k → isStringLike (elemAt l j) = isStringLike (elemAt l 0)) :
    ∃ e, mkConstArray l = Except.error e ∧ reportedIndex e = some k := by
  obtain ⟨v, rest, rfl⟩ := List.exists_cons_of_ne_nil
    (List.ne_nil_of_length_pos (Nat.lt_of_le_of_lt (Nat.zero_le k) hk))
  have h0 : elemAt (v :: rest) 0 = v := rfl
  cases k with
  | zero => exact absurd rfl hdiff
  | succ k' =>
    have hkr : k' < rest.length := Nat.lt_of_succ_lt_succ hk
    have hv0 : isValidType v = true := hvalid v (List.mem_cons_self v rest)
    have hfront : ∀ j, j < k' →
        isValidType (elemAt rest j) = true ∧ isStringLike (elemAt rest j) = isStringLike v := by
      intro j hj
      have hmem : elemAt rest j ∈ rest :=
        elemAt_mem rest j (Nat.lt_trans hj hkr)
      refine ⟨hvalid _ (List.mem_cons_of_mem v hmem), ?_⟩
      have := hfirst (j + 1) (Nat.succ_lt_succ hj)
      rwa [elemAt_cons_succ, h0] at this
    have hw : isStringLike (elemAt rest k') = !(isStringLike v) := by
      have hne := hdiff
      rw [elemAt_cons_succ, h0] at hne
      cases hsl : isStringLike (elemAt rest k') <;>
        cases hsv : isStringLike v <;> simp_all
    have hwvalid : isValidType (elemAt rest k') = true :=
      hvalid _ (List.mem_cons_of_mem v (elemAt_mem rest k' hkr))
    have hchain : sanitizeLoop (v :: rest) 0 false false
        = sanitizeLoop (elemAt rest k' :: rest.drop (k' + 1)) (1 + k')
            (!(isStringLike v)) (isStringLike v) := by
      rw [sanitizeLoop_first v rest 0 hv0,
        sanitizeLoop_uniform_front (isStringLike v) rest k' 1 (Nat.le_of_lt hkr) hfront,
        drop_eq_elemAt_cons rest k' hkr]
    have harith : 1 + k' = k' + 1 := Nat.add_comm 1 k'
    cases hsv : isStringLike v with
    | true =>
      refine ⟨ValidationError.mixNumbers (k' + 1), ?_, rfl⟩
      have hloop : sanitizeLoop (v :: rest) 0 false false
          = Except.error (ValidationError.mixNumbers (k' + 1)) := by
        rw [hchain, hsv]
        rw [hsv] at hw
        simp [sanitizeLoop, hwvalid, hw, harith]
      simp [mkConstArray, ConstArray._sanitize, hloop]
    | false =>
      refine ⟨ValidationError.mixStrings (k' + 1), ?_, rfl⟩
      have hloop : sanitizeLoop (v :: rest) 0 false false
          = Except.error (ValidationError.mixStrings (k' + 1)) := by
        rw [hchain, hsv]
        rw [hsv] at hw
        simp [sanitizeLoop, hwvalid, hw, harith]
      simp [mkConstArray, ConstArray._sanitize, hloop]

/-- Witness for C2 at the input of Example 4: mixing a string with a
number fails citing index 1. -/
theorem constarray_mixed_fails_at_first_mismatch_witness :
    ∃ e, mkConstArray ([PyVal.pstr ("A"), PyVal.pint 1]) = Except.error e
      ∧ reportedIndex e = some 1 :=
  constarray_mixed_fails_at_first_mismatch
    ([PyVal.pstr ("A"), PyVal.pint 1]) 1 (by decide) (by decide) (by decide)
    (by decide)

/-- Counterexample to C5 as stated: the sequence holding a string, a
number, and then a value of an unrecognised class does fail, but the
error cites index 1 (the mixed-category offense found first), not index
2, the index of the unique invalid-kind element. -/
theorem constarray_invalid_index_counterexample :
    mkConstArray ([PyVal.pstr ("A"), PyVal.pint 1, PyVal.other ("NoneType")])
      = Except.error (ValidationError.mixNumbers 1)
    ∧ reportedIndex (ValidationError.mixNumbers 1) ≠ some 2 :=
  ⟨rfl, by decide⟩

/-- Claim C5 as amended: construction fails on a sequence whose element
at index k is of an unrecognised kind, and the error reports index k
provided every earlier element is of a valid kind and shares the category
of the first element (otherwise the loop stops at that earlier offense
first). -/
theorem constarray_invalid_type_reported (l : List PyVal) (k : Nat)
    (hk : k < l.length)
    (hbad : isValidType (elemAt l k) = false)
    (hpv : ∀ j, j < k → isValidType (elemAt l j) = true)
    (hph : ∀ j, j < k → isStringLike (elemAt l j) = isStringLike (elemAt l 0)) :
    mkConstArray l
      = Except.error (ValidationError.invalidType k (pyTypeName (elemAt l k))) := by
  obtain ⟨v, rest, rfl⟩ := List.exists_cons_of_ne_nil
    (List.ne_nil_of_length_pos (Nat.lt_of_le_of_lt (Nat.zero_le k) hk))
  have h0 : elemAt (v :: rest) 0 = v := rfl
  cases k with
  | zero =>
    have hloop : sanitizeLoop (v :: rest) 0 false false
        = Except.error (ValidationError.invalidType 0 (pyTypeName v)) := by
      rw [h0] at hbad
      simp [sanitizeLoop, hbad]
    simp [mkConstArray, ConstArray._sanitize, hloop, h0]
  | succ k' =>
    have hkr : k' < rest.length := Nat.lt_of_succ_lt_succ hk
    have hv0 : isValidType v = true := by
      have := hpv 0 (Nat.succ_pos k')
      rwa [h0] at this
    have hfront : ∀ j, j < k' →
        isValidType (elemAt rest j) = true ∧ isStringLike (elemAt rest j) = isStringLike v := by
      intro j hj
      constructor
      · have := hpv (j + 1) (Nat.succ_lt_succ hj)
        rwa [elemAt_cons_succ] at this
      · have := hph (j + 1) (Nat.succ_lt_succ hj)
        rwa [elemAt_cons_succ, h0] at this
    have hbad' : isValidType (elemAt rest k') = false := by
      rwa [elemAt_cons_succ] at hbad
    have harith : 1 + k' = k' + 1 := Nat.add_comm 1 k'
    have hloop : sanitizeLoop (v :: rest) 0 false false
        = Except.error (ValidationError.invalidType (k' + 1)
            (pyTypeName (elemAt rest k'))) := by
      rw [sanitizeLoop_first v rest 0 hv0,
        sanitizeLoop_uniform_front (isStringLike v) rest k' 1 (Nat.le_of_lt hkr) hfront,
        drop_eq_elemAt_cons rest k' hkr]
      simp [sanitizeLoop, hbad', harith]
    rw [elemAt_cons_succ]
    simp [mkConstArray, ConstArray._sanitize, hloop]

/-- Witness for the amended C5: a number followed by a value of class
NoneType fails citing index 1, the index of the invalid element. -/
theorem constarray_invalid_type_reported_witness :
    mkConstArray ([PyVal.pint 7, PyVal.other ("NoneType")])
      = Except.error (ValidationError.invalidType 1 ("NoneType")) :=
  constarray_invalid_type_reported ([PyVal.pint 7, PyVal.other ("NoneType")]) 1
    (by decide) (by decide) (by decide) (by decide)

/-- Claim C8: every successfully constructed ConstArray stores exactly the
validated sequence, of length at least 1, with every element of a valid
kind and all elements of one category; and none of Validate, FormatDb or
the debug representation changes the object, so the invariants hold ever
after without being re-checked. -/
theorem constarray_invariants_at_construction (v : List PyVal) (a : ConstArray)
    (h : mkConstArray v = Except.ok a) :
    1 ≤ a.value.length
    ∧ a.value = v
    ∧ (∀ w ∈ a.value, isValidType w = true)
    ∧ ((∀ w ∈ a.value, isStringLike w = true) ∨ (∀ w ∈ a.value, isStringLike w = false))
    ∧ (∀ record fieldname,
        (a.Validate record fieldname).2 = a
        ∧ (a.FormatDb record fieldname).2 = a
        ∧ a.reprStr.2 = a) := by
  obtain ⟨hval, hne, hloop⟩ := mkConstArray_ok_inv v a h
  obtain ⟨w0, rest, rfl⟩ := List.exists_cons_of_ne_nil hne
  have hv0 : isValidType w0 = true := by
    cases hv : isValidType w0 with
    | false => rw [sanitizeLoop, hv] at hloop; simp at hloop
    | true => rfl
  rw [sanitizeLoop_first w0 rest 0 hv0] at hloop
  have hcat : (∀ w ∈ w0 :: rest, isStringLike w = true)
      ∨ (∀ w ∈ w0 :: rest, isStringLike w = false) := by
    cases hsl : isStringLike w0 with
    | true =>
      rw [hsl] at hloop
      left
      intro w hw
      rcases List.mem_cons.mp hw with hw0 | hwr
      · rw [hw0, hsl]
      · exact (sanitizeLoop_ok_all_strings rest 1 false hloop w hwr).2
    | false =>
      rw [hsl] at hloop
      right
      intro w hw
      rcases List.mem_cons.mp hw with hw0 | hwr
      · rw [hw0, hsl]
      · exact (sanitizeLoop_ok_no_strings rest 1 false hloop w hwr).2
  have hallvalid : ∀ w ∈ w0 :: rest, isValidType w = true := by
    intro w hw
    rcases List.mem_cons.mp hw with hw0 | hwr
    · rw [hw0]; exact hv0
    · cases hsl : isStringLike w0 with
      | true =>
        rw [hsl] at hloop
        exact (sanitizeLoop_ok_all_strings rest 1 false hloop w hwr).1
      | false =>
        rw [hsl] at hloop
        exact (sanitizeLoop_ok_no_strings rest 1 false hloop w hwr).1
  refine ⟨?_, hval, ?_, ?_, fun record fieldname => ⟨rfl, rfl, rfl⟩⟩
  · rw [hval]; exact Nat.succ_le_of_lt (List.length_pos.mpr hne)
  · rw [hval]; exact hallvalid
  · rw [hval]
    exact hcat

/-- Witness for C8 at the one-element numeric array. -/
theorem constarray_invariants_at_construction_witness :
    1 ≤ (ConstArray.mk ([PyVal.pint 1])).value.length
    ∧ (ConstArray.mk ([PyVal.pint 1])).value = ([PyVal.pint 1])
    ∧ (∀ w ∈ (ConstArray.mk ([PyVal.pint 1])).value, isValidType w = true)
    ∧ ((∀ w ∈ (ConstArray.mk ([PyVal.pint 1])).value, isStringLike w = true)
       ∨ (∀ w ∈ (ConstArray.mk ([PyVal.pint 1])).value, isStringLike w = false))
    ∧ (∀ record fieldname,
        ((ConstArray.mk ([PyVal.pint 1])).Validate record fieldname).2
          = ConstArray.mk ([PyVal.pint 1])
        ∧ ((ConstArray.mk ([PyVal.pint 1])).FormatDb record fieldname).2
          = ConstArray.mk ([PyVal.pint 1])
        ∧ (ConstArray.mk ([PyVal.pint 1])).reprStr.2 = ConstArray.mk ([PyVal.pint 1])) :=
  constarray_invariants_at_construction ([PyVal.pint 1])
    (ConstArray.mk ([PyVal.pint 1])) rfl

theorem list_set_append_left {α : Type} :
    ∀ (xs ys : List α) (i : Nat) (w : α), i < xs.length →
      (xs ++ ys).set i w = xs.set i w ++ ys := by
  intro xs
  induction xs with
  | nil => intro ys i w h; exact absurd h (Nat.not_lt_zero i)
  | cons x rest ih =>
    intro ys i w h
    cases i with
    | zero => rfl
    | succ j =>
      show x :: ((rest ++ ys).set j w) = x :: (rest.set j w ++ ys)
      rw [ih ys j w (Nat.lt_of_succ_lt_succ h)]

theorem list_getD_append_length {α : Type} :
    ∀ (xs : List α) (x : α) (ys : List α) (d : α),
      (xs ++ x :: ys).getD xs.length d = x := by
  intro xs
  induction xs with
  | nil => intro x ys d; rfl
  | cons a rest ih => intro x ys d; exact ih x ys d

/-- Claim C10: the constructor copies the contents of the caller's list
object into a fresh cell, so overwriting the caller's list after a
successful construction changes neither the cell the ConstArray
references nor the FormatDb output. -/
theorem constarray_copies_input (s : PyListStore) (i : Nat) (s2 : PyListStore)
    (a : ConstArrayRef) (w : List PyVal) (record fieldname : String)
    (h : mkConstArrayH s i = Except.ok (s2, a))
    (hi : i < s.cells.length) :
    readCell (writeCell s2 i w) a.ref = readCell s2 a.ref
    ∧ a.FormatDb (writeCell s2 i w) record fieldname
      = a.FormatDb s2 record fieldname := by
  cases hs : ConstArray._sanitize (readCell s i) with
  | error e => rw [mkConstArrayH, hs] at h; simp at h
  | ok l =>
    rw [mkConstArrayH, hs] at h
    simp at h
    obtain ⟨hs2, ha⟩ := h
    have hread : readCell (writeCell s2 i w) a.ref = readCell s2 a.ref := by
      rw [← hs2, ← ha]
      show ((s.cells ++ [l]).set i w).getD s.cells.length []
        = (s.cells ++ [l]).getD s.cells.length []
      rw [list_set_append_left s.cells ([l]) i w hi]
      have hlen : (s.cells.set i w).length = s.cells.length :=
        List.length_set s.cells i w
      rw [list_getD_append_length s.cells l ([]) ([]), ← hlen,
        list_getD_append_length (s.cells.set i w) l ([]) ([])]
    exact ⟨hread, congrArg formatConstList hread⟩

/-- Witness for C10: a store holding one list cell, construction from it,
then an overwrite of the original cell; the stored copy and the FormatDb
output are unchanged. -/
theorem constarray_copies_input_witness :
    readCell
        (writeCell (PyListStore.mk ([[PyVal.pint 1], [PyVal.pint 1]])) 0
          ([PyVal.pint 2]))
        (ConstArrayRef.mk 1).ref
      = readCell (PyListStore.mk ([[PyVal.pint 1], [PyVal.pint 1]]))
          (ConstArrayRef.mk 1).ref
    ∧ (ConstArrayRef.mk 1).FormatDb
        (writeCell (PyListStore.mk ([[PyVal.pint 1], [PyVal.pint 1]])) 0
          ([PyVal.pint 2]))
        ("REC") ("INP")
      = (ConstArrayRef.mk 1).FormatDb
          (PyListStore.mk ([[PyVal.pint 1], [PyVal.pint 1]])) ("REC") ("INP") :=
  constarray_copies_input (PyListStore.mk ([[PyVal.pint 1]])) 0
    (PyListStore.mk ([[PyVal.pint 1], [PyVal.pint 1]]))
    (ConstArrayRef.mk 1) ([PyVal.pint 2]) ("REC") ("INP") rfl (by decide)
